import Mathlib

/-!
# Membership maintenance of the DHT routing table (subscriber_notifee.go)

A shallow embedding of `subscriberNotifee.subscribe` and
`subscriberNotifee.Disconnected`.  The mutable fields of `IpfsDHT` that the two
functions touch are a record; the collaborators that are only read
(network stack, peerstore) are a snapshot record `Host`.  Every call the source
makes on a lock, on the routing table, on the refresh channel or on a
goroutine is also appended to `trace`, in program order, so that statements
about "which calls were made, and in which order" can be written down.
-/

namespace Dht

/-- Peer identity (peer.ID): opaque and comparable. -/
abbrev PeerID := Nat

/-- Protocol identifier, as returned by protocolStrs. -/
abbrev ProtocolID := String

/-- Go error value; the nil error is Option.none. -/
abbrev GoError := String

/-- Handle of a per-peer messageSender stored in strmap. -/
abbrev MessageSender := Nat

/-- Modelled from the spec: the Connectivity State type of the network stack,
whose declaration is outside subscriber_notifee.go; per peer one of
NotConnected, Connected. -/
inductive Connectedness where
  | NotConnected
  | Connected
  deriving DecidableEq

/-- Calls with an effect outside the function, recorded in program order. -/
inductive Action where
  | Notify
  | StopNotify
  | SubClose
  | Errorf
  | plkLock
  | plkUnlock
  | smlkLock
  | smlkUnlock
  | Update (p : PeerID)
  | Remove (p : PeerID)
  | triggerSend
  | goInvalidate (ms : MessageSender)
  deriving DecidableEq

/-- Modelled from the spec: the Routing Table, an external collaborator, is a
set of peer identities with Update (insert or refresh), Remove and Size. -/
abbrev RoutingTable := Finset PeerID

/-- Modelled from the spec: RoutingTable.Update inserts the peer; on a peer
already present it only refreshes it, so the set is unchanged. -/
def RoutingTable.Update (rt : RoutingTable) (p : PeerID) : RoutingTable :=
  insert p rt

/-- Modelled from the spec: RoutingTable.Remove deletes the peer; on an absent
peer it does nothing. -/
def RoutingTable.Remove (rt : RoutingTable) (p : PeerID) : RoutingTable :=
  rt.erase p

/-- Modelled from the spec: RoutingTable.Size is the number of member peers. -/
def RoutingTable.Size (rt : RoutingTable) : Nat :=
  rt.card

/-- Modelled from the spec: the Refresh Trigger channel, created outside
subscriber_notifee.go, is a single outstanding request slot. -/
def triggerRtRefreshCap : Nat := 1

/-- The fields of IpfsDHT used by subscribe and Disconnected.
`triggerRtRefresh` is the number of requests waiting in the channel. -/
structure IpfsDHT where
  routingTable : RoutingTable
  strmap : PeerID → Option MessageSender
  triggerRtRefresh : Nat
  autoRefresh : Bool
  protocolStrs : List ProtocolID
  trace : List Action

/-- Snapshot of the collaborators that are only read: Peerstore().Peers(),
Network().Peers(), Network().Connectedness and peerstore.SupportsProtocols
(which returns a list and an error). -/
structure Host where
  PeerstorePeers : List PeerID
  NetworkPeers : List PeerID
  Connectedness : PeerID → Connectedness
  SupportsProtocols : PeerID → List ProtocolID → List ProtocolID × Option GoError

/-- Append one recorded call to the trace. -/
def IpfsDHT.emit (dht : IpfsDHT) (a : Action) : IpfsDHT :=
  { dht with trace := dht.trace ++ [a] }

/-- Deferred calls run when the function returns, last deferred first; the
list holds them in that order. -/
def runDefers (defers : List Action) (dht : IpfsDHT) : IpfsDHT :=
  { dht with trace := dht.trace ++ defers }

/-- Modelled from the spec: dht.Update(ctx, p), defined outside
subscriber_notifee.go, admits the peer through RoutingTable.Update. -/
def IpfsDHT.Update (dht : IpfsDHT) (p : PeerID) : IpfsDHT :=
  { dht with
    routingTable := dht.routingTable.Update p
    trace := dht.trace ++ [Action.Update p] }

/-- The call dht.routingTable.Remove(p). -/
def IpfsDHT.Remove (dht : IpfsDHT) (p : PeerID) : IpfsDHT :=
  { dht with
    routingTable := dht.routingTable.Remove p
    trace := dht.trace ++ [Action.Remove p] }

/-- The statement `select { case dht.triggerRtRefresh <- nil: default: }`:
the send happens when the channel has room, otherwise the default case runs. -/
def IpfsDHT.trySendTrigger (dht : IpfsDHT) : IpfsDHT :=
  if dht.triggerRtRefresh < triggerRtRefreshCap then
    { dht with
      triggerRtRefresh := dht.triggerRtRefresh + 1
      trace := dht.trace ++ [Action.triggerSend] }
  else dht

/-- The test `err == nil && len(protos) != 0` on the result of
SupportsProtocols(p, dht.protocolStrs()...). -/
def supported (h : Host) (dht : IpfsDHT) (p : PeerID) : Prop :=
  (h.SupportsProtocols p dht.protocolStrs).2 = none ∧
    (h.SupportsProtocols p dht.protocolStrs).1.length ≠ 0

instance (h : Host) (dht : IpfsDHT) (p : PeerID) : Decidable (supported h dht p) := by
  unfold supported; infer_instance

/-- Body of the bootstrap loop of subscribe (lines 42-51) for one peer. -/
def scanPeer (h : Host) (dht : IpfsDHT) (p : PeerID) : IpfsDHT :=
  if h.Connectedness p ≠ Connectedness.Connected then dht
  else if supported h dht p then dht.Update p
  else dht

/-- Bootstrap scan of subscribe (lines 41-52). -/
def bootstrapScan (h : Host) (dht : IpfsDHT) : IpfsDHT :=
  let dht := dht.emit Action.plkLock
  let dht := h.PeerstorePeers.foldl (scanPeer h) dht
  dht.emit Action.plkUnlock

/-- Handling of one EvtPeerIdentificationCompleted event (lines 69-87). -/
def handleIdentified (minRTRefreshThreshold : Nat) (h : Host) (dht : IpfsDHT)
    (p : PeerID) : IpfsDHT :=
  let dht := dht.emit Action.plkLock
  if h.Connectedness p ≠ Connectedness.Connected then
    dht.emit Action.plkUnlock
  else
    let dht :=
      if supported h dht p then
        let refresh := decide (dht.routingTable.Size ≤ minRTRefreshThreshold)
        let dht := dht.Update p
        if refresh && dht.autoRefresh then dht.trySendTrigger else dht
      else dht
    dht.emit Action.plkUnlock

/-- Dynamic type of a value received from sub.Out(). -/
inductive Payload where
  | EvtPeerIdentificationCompleted (Peer : PeerID)
  | Other (tag : Nat)
  deriving DecidableEq

/-- The case of the select statement of the steady-state loop that fires:
a value from sub.Out() (with the collaborators as they are when it is
handled), sub.Out() closed, or proc.Closing(). -/
inductive Ready where
  | recv (evt : Payload) (h : Host)
  | closedOut
  | Closing

/-- How a run of subscribe ends: it returned, it is waiting in select with no
case ready, or it panicked. -/
inductive Outcome where
  | returned (dht : IpfsDHT)
  | blocked (dht : IpfsDHT)
  | panicked (dht : IpfsDHT)

/-- State carried by an outcome. -/
def Outcome.dht : Outcome → IpfsDHT
  | Outcome.returned d => d
  | Outcome.blocked d => d
  | Outcome.panicked d => d

/-- Steady-state loop of subscribe (lines 54-92). -/
def eventLoop (minRTRefreshThreshold : Nat) (defers : List Action) :
    IpfsDHT → List Ready → Outcome
  | dht, [] => Outcome.blocked dht
  | dht, Ready.closedOut :: _ => Outcome.returned (runDefers defers dht)
  | dht, Ready.Closing :: _ => Outcome.returned (runDefers defers dht)
  | dht, Ready.recv (Payload.Other _) _ :: _ =>
      Outcome.returned (runDefers defers (dht.emit Action.Errorf))
  | dht, Ready.recv (Payload.EvtPeerIdentificationCompleted p) h :: rest =>
      eventLoop minRTRefreshThreshold defers
        (handleIdentified minRTRefreshThreshold h dht p) rest

/-- Handle returned by EventBus().Subscribe; a nil interface is Option.none. -/
abbrev Subscription := Unit

/-- Function subscribe (lines 23-93).  `subscribed` is the pair returned by
EventBus().Subscribe, `h` the collaborators during the bootstrap scan, and
`ready` the cases that fire in the select statement, in order.  Calling the
method Close of a nil interface in `defer sub.Close()` panics. -/
def subscribe (minRTRefreshThreshold : Nat) (h : Host)
    (subscribed : Option Subscription × Option GoError) (ready : List Ready)
    (dht : IpfsDHT) : Outcome :=
  let dht := dht.emit Action.Notify
  let defers := [Action.StopNotify]
  let dht := if subscribed.2 ≠ none then dht.emit Action.Errorf else dht
  match subscribed.1 with
  | none => Outcome.panicked (runDefers defers dht)
  | some _ =>
    let defers := Action.SubClose :: defers
    let dht := bootstrapScan h dht
    eventLoop minRTRefreshThreshold defers dht ready

/-- Body of the recovery loop of Disconnected (lines 118-124) for one peer. -/
def recoverPeer (h : Host) (dht : IpfsDHT) (p : PeerID) : IpfsDHT :=
  if supported h dht p then dht.Update p else dht

/-- Function Disconnected (lines 95-141) for the remote peer `p` of the closed
connection; `closing` tells whether dht.Process().Closing() is closed. -/
def Disconnected (minRTRefreshThreshold : Nat) (closing : Bool) (h : Host)
    (dht : IpfsDHT) (p : PeerID) : IpfsDHT :=
  if closing then dht
  else
    let dht := dht.emit Action.plkLock
    let defers := [Action.plkUnlock]
    if h.Connectedness p = Connectedness.Connected then runDefers defers dht
    else
      let dht := dht.Remove p
      let dht :=
        if dht.routingTable.Size < minRTRefreshThreshold then
          h.NetworkPeers.foldl (recoverPeer h) dht
        else dht
      let dht := dht.emit Action.smlkLock
      let defers := Action.smlkUnlock :: defers
      match dht.strmap p with
      | none => runDefers defers dht
      | some ms =>
        let dht := { dht with strmap := fun q => if q = p then none else dht.strmap q }
        let dht := dht.emit (Action.goInvalidate ms)
        runDefers defers dht

/-- Calls recorded between the state `before` and the later state `after`. -/
def emitted (before after : IpfsDHT) : List Action :=
  after.trace.drop before.trace.length

/-- Locks held after a recorded call, given the locks held before it:
the pair is (plk held, smlk held). -/
def heldAfter (held : Bool × Bool) : Action → Bool × Bool
  | Action.plkLock => (true, held.2)
  | Action.plkUnlock => (false, held.2)
  | Action.smlkLock => (held.1, true)
  | Action.smlkUnlock => (held.1, false)
  | _ => held

/-- Whether plk and smlk are held together at some point of a sequence of
recorded calls that starts with the locks `held`. -/
def bothHeld : Bool × Bool → List Action → Bool
  | held, [] => held.1 && held.2
  | held, a :: rest => (held.1 && held.2) || bothHeld (heldAfter held a) rest

/-- Peers handed to dht.Update in a sequence of recorded calls, in order. -/
def updateCalls : List Action → List PeerID
  | [] => []
  | Action.Update p :: rest => p :: updateCalls rest
  | _ :: rest => updateCalls rest

/-- Handles whose invalidation was started in a sequence of recorded calls. -/
def invalidations : List Action → List MessageSender
  | [] => []
  | Action.goInvalidate ms :: rest => ms :: invalidations rest
  | _ :: rest => invalidations rest

/-- Example collaborators: peers 1, 2, 3 known and connected except 3; peer 1
supports the DHT protocol, the lookup of peer 2 fails. -/
def exHost : Host where
  PeerstorePeers := [1, 2, 3]
  NetworkPeers := [1, 2]
  Connectedness := fun p => if p = 3 then Connectedness.NotConnected else Connectedness.Connected
  SupportsProtocols := fun p _ =>
    if p = 1 then (["/ipfs/kad/1.0.0"], none)
    else if p = 2 then ([], some "peer not found")
    else ([], none)

/-- Example node: empty table, auto-refresh on, no resource entry but for peer 3. -/
def exDHT : IpfsDHT where
  routingTable := ∅
  strmap := fun p => if p = 3 then some 30 else none
  triggerRtRefresh := 0
  autoRefresh := true
  protocolStrs := ["/ipfs/kad/1.0.0"]
  trace := []

/-- Example node whose table has as many members as the threshold 2: peers 3
and 4; peer 3 has a resource entry. -/
def exDHT2 : IpfsDHT where
  routingTable := {3, 4}
  strmap := fun p => if p = 3 then some 30 else none
  triggerRtRefresh := 0
  autoRefresh := true
  protocolStrs := ["/ipfs/kad/1.0.0"]
  trace := []

/-! ## Frame lemmas for the elementary steps -/

@[simp] theorem emit_trace (dht : IpfsDHT) (a : Action) :
    (dht.emit a).trace = dht.trace ++ [a] := rfl

@[simp] theorem emit_routingTable (dht : IpfsDHT) (a : Action) :
    (dht.emit a).routingTable = dht.routingTable := rfl

@[simp] theorem emit_strmap (dht : IpfsDHT) (a : Action) :
    (dht.emit a).strmap = dht.strmap := rfl

@[simp] theorem emit_triggerRtRefresh (dht : IpfsDHT) (a : Action) :
    (dht.emit a).triggerRtRefresh = dht.triggerRtRefresh := rfl

@[simp] theorem emit_autoRefresh (dht : IpfsDHT) (a : Action) :
    (dht.emit a).autoRefresh = dht.autoRefresh := rfl

@[simp] theorem emit_protocolStrs (dht : IpfsDHT) (a : Action) :
    (dht.emit a).protocolStrs = dht.protocolStrs := rfl

@[simp] theorem runDefers_trace (defers : List Action) (dht : IpfsDHT) :
    (runDefers defers dht).trace = dht.trace ++ defers := rfl

@[simp] theorem runDefers_routingTable (defers : List Action) (dht : IpfsDHT) :
    (runDefers defers dht).routingTable = dht.routingTable := rfl

@[simp] theorem runDefers_strmap (defers : List Action) (dht : IpfsDHT) :
    (runDefers defers dht).strmap = dht.strmap := rfl

@[simp] theorem runDefers_triggerRtRefresh (defers : List Action) (dht : IpfsDHT) :
    (runDefers defers dht).triggerRtRefresh = dht.triggerRtRefresh := rfl

@[simp] theorem Update_trace (dht : IpfsDHT) (p : PeerID) :
    (dht.Update p).trace = dht.trace ++ [Action.Update p] := rfl

@[simp] theorem Update_routingTable (dht : IpfsDHT) (p : PeerID) :
    (dht.Update p).routingTable = insert p dht.routingTable := rfl

@[simp] theorem Update_strmap (dht : IpfsDHT) (p : PeerID) :
    (dht.Update p).strmap = dht.strmap := rfl

@[simp] theorem Update_triggerRtRefresh (dht : IpfsDHT) (p : PeerID) :
    (dht.Update p).triggerRtRefresh = dht.triggerRtRefresh := rfl

@[simp] theorem Update_autoRefresh (dht : IpfsDHT) (p : PeerID) :
    (dht.Update p).autoRefresh = dht.autoRefresh := rfl

@[simp] theorem Update_protocolStrs (dht : IpfsDHT) (p : PeerID) :
    (dht.Update p).protocolStrs = dht.protocolStrs := rfl

@[simp] theorem Remove_trace (dht : IpfsDHT) (p : PeerID) :
    (dht.Remove p).trace = dht.trace ++ [Action.Remove p] := rfl

@[simp] theorem Remove_routingTable (dht : IpfsDHT) (p : PeerID) :
    (dht.Remove p).routingTable = dht.routingTable.erase p := rfl

@[simp] theorem Remove_strmap (dht : IpfsDHT) (p : PeerID) :
    (dht.Remove p).strmap = dht.strmap := rfl

@[simp] theorem Remove_triggerRtRefresh (dht : IpfsDHT) (p : PeerID) :
    (dht.Remove p).triggerRtRefresh = dht.triggerRtRefresh := rfl

@[simp] theorem Remove_protocolStrs (dht : IpfsDHT) (p : PeerID) :
    (dht.Remove p).protocolStrs = dht.protocolStrs := rfl

/-- The support test reads the node only through protocolStrs. -/
theorem supported_congr (h : Host) (d d2 : IpfsDHT) (p : PeerID)
    (e : d.protocolStrs = d2.protocolStrs) : supported h d p ↔ supported h d2 p := by
  unfold supported; rw [e]

@[simp] theorem supported_emit (h : Host) (d : IpfsDHT) (a : Action) (p : PeerID) :
    supported h (d.emit a) p ↔ supported h d p :=
  supported_congr h _ _ p rfl

@[simp] theorem supported_Update (h : Host) (d : IpfsDHT) (q p : PeerID) :
    supported h (d.Update q) p ↔ supported h d p :=
  supported_congr h _ _ p rfl

@[simp] theorem supported_Remove (h : Host) (d : IpfsDHT) (q p : PeerID) :
    supported h (d.Remove q) p ↔ supported h d p :=
  supported_congr h _ _ p rfl

/-- The calls recorded by a step that appends `l` to the trace are `l`. -/
theorem emitted_of_trace (d d2 : IpfsDHT) (l : List Action)
    (e : d2.trace = d.trace ++ l) : emitted d d2 = l := by
  unfold emitted; rw [e]; simp

/-- Trace of the handling of one identification event. -/
theorem handleIdentified_trace (thr : Nat) (h : Host) (dht : IpfsDHT) (p : PeerID) :
    (handleIdentified thr h dht p).trace = dht.trace ++
      (if h.Connectedness p = Connectedness.Connected ∧ supported h dht p then
        if (decide (dht.routingTable.Size ≤ thr) && dht.autoRefresh) = true ∧
            dht.triggerRtRefresh < triggerRtRefreshCap then
          [Action.plkLock, Action.Update p, Action.triggerSend, Action.plkUnlock]
        else [Action.plkLock, Action.Update p, Action.plkUnlock]
      else [Action.plkLock, Action.plkUnlock]) := by
  unfold handleIdentified IpfsDHT.trySendTrigger
  by_cases hc : h.Connectedness p = Connectedness.Connected
  · by_cases hs : supported h dht p
    · by_cases hr : (decide (dht.routingTable.Size ≤ thr) && dht.autoRefresh) = true
      · by_cases hf : dht.triggerRtRefresh < triggerRtRefreshCap
        · simp [hc, hs, hr, hf]
        · simp [hc, hs, hr, hf]
      · simp [hc, hs, hr]
    · simp [hc, hs]
  · simp [hc]

/-- Routing table after the handling of one identification event. -/
theorem handleIdentified_routingTable (thr : Nat) (h : Host) (dht : IpfsDHT) (p : PeerID) :
    (handleIdentified thr h dht p).routingTable =
      if h.Connectedness p = Connectedness.Connected ∧ supported h dht p then
        insert p dht.routingTable
      else dht.routingTable := by
  unfold handleIdentified IpfsDHT.trySendTrigger
  by_cases hc : h.Connectedness p = Connectedness.Connected
  · by_cases hs : supported h dht p
    · by_cases hr : (decide (dht.routingTable.Size ≤ thr) && dht.autoRefresh) = true
      · by_cases hf : dht.triggerRtRefresh < triggerRtRefreshCap
        · simp [hc, hs, hr, hf]
        · simp [hc, hs, hr, hf]
      · simp [hc, hs, hr]
    · simp [hc, hs]
  · simp [hc]

/-- Refresh channel after the handling of one identification event. -/
theorem handleIdentified_triggerRtRefresh (thr : Nat) (h : Host) (dht : IpfsDHT)
    (p : PeerID) :
    (handleIdentified thr h dht p).triggerRtRefresh =
      if (h.Connectedness p = Connectedness.Connected ∧ supported h dht p) ∧
          (dht.routingTable.Size ≤ thr ∧ dht.autoRefresh = true) ∧
          dht.triggerRtRefresh < triggerRtRefreshCap then
        dht.triggerRtRefresh + 1
      else dht.triggerRtRefresh := by
  unfold handleIdentified IpfsDHT.trySendTrigger
  by_cases hc : h.Connectedness p = Connectedness.Connected
  · by_cases hs : supported h dht p
    · by_cases hz : dht.routingTable.Size ≤ thr
      · by_cases ha : dht.autoRefresh = true
        · by_cases hf : dht.triggerRtRefresh < triggerRtRefreshCap
          · simp [hc, hs, hz, ha, hf]
          · simp [hc, hs, hz, ha, hf]
        · simp [hc, hs, hz, ha]
      · simp [hc, hs, hz]
    · simp [hc, hs]
  · simp [hc]

/-! ## The steady-state loop -/

/-- A run of identification events followed by the shutdown signal: the loop
handles every event, in arrival order, each on the state left by the one
before, and then returns. -/
theorem eventLoop_identified_run (thr : Nat) (defers : List Action) (rest : List Ready)
    (evs : List (PeerID × Host)) (dht : IpfsDHT) :
    eventLoop thr defers dht
        (evs.map (fun e => Ready.recv (Payload.EvtPeerIdentificationCompleted e.1) e.2)
          ++ Ready.Closing :: rest)
      = Outcome.returned
          (runDefers defers (evs.foldl (fun d e => handleIdentified thr e.2 d e.1) dht)) := by
  induction evs generalizing dht with
  | nil => rfl
  | cons e evs ih =>
    simp only [List.map_cons, List.cons_append, eventLoop, List.foldl_cons]
    exact ih _

/-- C1: an identification event for peer p handled by the steady-state loop
hands p to Update exactly when Connectedness(p) is Connected and
SupportsProtocols returned no error and a non-empty list (then p, and only p,
is handed over, once, and the table is the old one with p inserted); in every
other case no peer is handed to Update and the routing table and the refresh
channel are as before; in both cases the loop carries on with the events
that remain: the state it waits in, returns with on shutdown, or handles the
next event on, is the state left by this event, and a whole run of
identification events is handled one by one in arrival order, by the loop
alone and inside subscribe. -/
theorem identification_event_updates_iff (thr : Nat) (defers : List Action) (h h2 h0 : Host)
    (dht : IpfsDHT) (p q : PeerID) (rest : List Ready) (evs : List (PeerID × Host)) :
    eventLoop thr defers dht
        (Ready.recv (Payload.EvtPeerIdentificationCompleted p) h :: rest)
      = eventLoop thr defers (handleIdentified thr h dht p) rest
    ∧ updateCalls (emitted dht (handleIdentified thr h dht p)) =
        (if h.Connectedness p = Connectedness.Connected ∧
            (h.SupportsProtocols p dht.protocolStrs).2 = none ∧
            (h.SupportsProtocols p dht.protocolStrs).1 ≠ [] then [p] else [])
    ∧ (handleIdentified thr h dht p).routingTable =
        (if h.Connectedness p = Connectedness.Connected ∧
            (h.SupportsProtocols p dht.protocolStrs).2 = none ∧
            (h.SupportsProtocols p dht.protocolStrs).1 ≠ [] then
          dht.routingTable.Update p else dht.routingTable)
    ∧ ((h.Connectedness p = Connectedness.Connected ∧
          (h.SupportsProtocols p dht.protocolStrs).2 = none ∧
          (h.SupportsProtocols p dht.protocolStrs).1 ≠ [])
        ∨ (handleIdentified thr h dht p).triggerRtRefresh = dht.triggerRtRefresh)
    ∧ eventLoop thr defers dht
          [Ready.recv (Payload.EvtPeerIdentificationCompleted p) h]
        = Outcome.blocked (handleIdentified thr h dht p)
    ∧ eventLoop thr defers dht
          (Ready.recv (Payload.EvtPeerIdentificationCompleted p) h :: Ready.Closing :: rest)
        = Outcome.returned (runDefers defers (handleIdentified thr h dht p))
    ∧ eventLoop thr defers dht
          (Ready.recv (Payload.EvtPeerIdentificationCompleted p) h ::
            Ready.recv (Payload.EvtPeerIdentificationCompleted q) h2 ::
              Ready.closedOut :: rest)
        = Outcome.returned
            (runDefers defers (handleIdentified thr h2 (handleIdentified thr h dht p) q))
    ∧ eventLoop thr defers dht
          (evs.map (fun e => Ready.recv (Payload.EvtPeerIdentificationCompleted e.1) e.2)
            ++ Ready.Closing :: rest)
        = Outcome.returned
            (runDefers defers (evs.foldl (fun d e => handleIdentified thr e.2 d e.1) dht))
    ∧ subscribe thr h0 (some (), none)
          (Ready.recv (Payload.EvtPeerIdentificationCompleted p) h :: Ready.Closing :: rest)
          dht
        = Outcome.returned
            (runDefers [Action.SubClose, Action.StopNotify]
              (handleIdentified thr h (bootstrapScan h0 (dht.emit Action.Notify)) p)) := by
  have hsup : supported h dht p ↔
      ((h.SupportsProtocols p dht.protocolStrs).2 = none ∧
        (h.SupportsProtocols p dht.protocolStrs).1 ≠ []) := by
    unfold supported; simp
  have hcond : (h.Connectedness p = Connectedness.Connected ∧ supported h dht p) ↔
      (h.Connectedness p = Connectedness.Connected ∧
        (h.SupportsProtocols p dht.protocolStrs).2 = none ∧
        (h.SupportsProtocols p dht.protocolStrs).1 ≠ []) := by
    rw [hsup]
  refine ⟨rfl, ?_, ?_, ?_, rfl, rfl, rfl,
    eventLoop_identified_run thr defers rest evs dht, rfl⟩
  · rw [emitted_of_trace _ _ _ (handleIdentified_trace thr h dht p)]
    by_cases hc : h.Connectedness p = Connectedness.Connected ∧ supported h dht p
    · rw [if_pos hc, if_pos (hcond.1 hc)]
      split <;> rfl
    · rw [if_neg hc, if_neg (fun hx => hc (hcond.2 hx))]; rfl
  · rw [handleIdentified_routingTable]
    by_cases hc : h.Connectedness p = Connectedness.Connected ∧ supported h dht p
    · rw [if_pos hc, if_pos (hcond.1 hc)]; rfl
    · rw [if_neg hc, if_neg (fun hx => hc (hcond.2 hx))]
  · rw [handleIdentified_triggerRtRefresh]
    by_cases hc : h.Connectedness p = Connectedness.Connected ∧ supported h dht p
    · exact Or.inl (hcond.1 hc)
    · right
      rw [if_neg]
      exact fun hx => hc hx.1

/-- The loop never looks past an event of the wrong type. -/
theorem eventLoop_stops_at_other (thr : Nat) (defers : List Action) (tag : Nat) (h : Host)
    (rest : List Ready) (pre : List Ready) (dht : IpfsDHT) :
    eventLoop thr defers dht (pre ++ Ready.recv (Payload.Other tag) h :: rest) =
      eventLoop thr defers dht (pre ++ [Ready.recv (Payload.Other tag) h]) := by
  induction pre generalizing dht with
  | nil => rfl
  | cons r pre ih =>
    cases r with
    | closedOut => rfl
    | Closing => rfl
    | recv evt h2 =>
      cases evt with
      | Other t => rfl
      | EvtPeerIdentificationCompleted q =>
        simp only [List.cons_append, eventLoop]
        exact ih _

/-- C8: when the steady-state loop receives a value that is not an
EvtPeerIdentificationCompleted it logs an error and returns (it does not
panic, and the deferred Close and StopNotify run); that event hands no peer to
Update and leaves the routing table and the refresh channel as they were, and
whatever follows it in the stream is not processed: the outcome of the loop,
and of subscribe, is the same as if the stream had ended with that event. -/
theorem wrong_payload_ends_loop (thr : Nat) (defers : List Action) (tag : Nat) (h h0 : Host)
    (err : Option GoError) (pre rest : List Ready) (dht : IpfsDHT) :
    eventLoop thr defers dht (Ready.recv (Payload.Other tag) h :: rest) =
        Outcome.returned (runDefers defers (dht.emit Action.Errorf))
    ∧ (runDefers defers (dht.emit Action.Errorf)).routingTable = dht.routingTable
    ∧ (runDefers defers (dht.emit Action.Errorf)).triggerRtRefresh = dht.triggerRtRefresh
    ∧ updateCalls (emitted dht (dht.emit Action.Errorf)) = []
    ∧ eventLoop thr defers dht (pre ++ Ready.recv (Payload.Other tag) h :: rest) =
        eventLoop thr defers dht (pre ++ [Ready.recv (Payload.Other tag) h])
    ∧ subscribe thr h0 (some (), err) (pre ++ Ready.recv (Payload.Other tag) h :: rest) dht =
        subscribe thr h0 (some (), err) (pre ++ [Ready.recv (Payload.Other tag) h]) dht := by
  refine ⟨rfl, rfl, rfl, ?_, eventLoop_stops_at_other thr defers tag h rest pre dht, ?_⟩
  · rw [emitted_of_trace _ _ [Action.Errorf] rfl]; rfl
  · unfold subscribe
    exact eventLoop_stops_at_other thr _ tag h rest pre _

/-- C4: for an identification event that admits its peer (Connected, no oracle
error, non-empty list) the refresh channel holds a request after the step
exactly when it held one before, or auto-refresh is enabled and the table size
read before the Update was at most minRTRefreshThreshold; the send is the
non-blocking one (the step is a total function), it adds a request only to an
empty slot, a slot that is full stays at exactly one request and a slot never
grows beyond one; the peer is in the table afterwards. -/
theorem admitting_event_refresh_trigger (thr : Nat) (h : Host) (dht : IpfsDHT) (p : PeerID)
    (hc : h.Connectedness p = Connectedness.Connected)
    (herr : (h.SupportsProtocols p dht.protocolStrs).2 = none)
    (hne : (h.SupportsProtocols p dht.protocolStrs).1 ≠ []) :
    (0 < (handleIdentified thr h dht p).triggerRtRefresh ↔
        0 < dht.triggerRtRefresh ∨
          (dht.autoRefresh = true ∧ dht.routingTable.Size ≤ thr))
    ∧ (handleIdentified thr h dht p).triggerRtRefresh =
        (if dht.autoRefresh = true ∧ dht.routingTable.Size ≤ thr ∧
            dht.triggerRtRefresh < triggerRtRefreshCap then
          dht.triggerRtRefresh + 1 else dht.triggerRtRefresh)
    ∧ (dht.triggerRtRefresh ≠ triggerRtRefreshCap ∨
        (handleIdentified thr h dht p).triggerRtRefresh = triggerRtRefreshCap)
    ∧ (handleIdentified thr h dht p).triggerRtRefresh ≤
        max dht.triggerRtRefresh triggerRtRefreshCap
    ∧ (handleIdentified thr h dht p).routingTable = dht.routingTable.Update p := by
  have hs : supported h dht p := ⟨herr, by simpa using hne⟩
  have ht := handleIdentified_triggerRtRefresh thr h dht p
  have hr := handleIdentified_routingTable thr h dht p
  rw [if_pos ⟨hc, hs⟩] at hr
  unfold triggerRtRefreshCap at *
  by_cases ha : dht.autoRefresh = true
  · by_cases hz : dht.routingTable.Size ≤ thr
    · by_cases hf : dht.triggerRtRefresh < 1
      · rw [if_pos ⟨⟨hc, hs⟩, ⟨hz, ha⟩, hf⟩] at ht
        rw [if_pos ⟨ha, hz, hf⟩]
        refine ⟨?_, ht, ?_, ?_, hr⟩
        · rw [ht]; simp [ha, hz]
        · left; omega
        · rw [ht]; omega
      · rw [if_neg (fun hx => hf hx.2.2)] at ht
        rw [if_neg (fun hx => hf hx.2.2)]
        refine ⟨?_, ht, ?_, ?_, hr⟩
        · rw [ht]; simp [ha, hz]; omega
        · rw [ht]; omega
        · rw [ht]; omega
    · rw [if_neg (fun hx => hz hx.2.1.1)] at ht
      rw [if_neg (fun hx => hz hx.2.1)]
      refine ⟨?_, ht, ?_, ?_, hr⟩
      · rw [ht]; simp [hz]
      · rw [ht]; omega
      · rw [ht]; omega
  · rw [if_neg (fun hx => ha hx.2.1.2)] at ht
    rw [if_neg (fun hx => ha hx.1)]
    refine ⟨?_, ht, ?_, ?_, hr⟩
    · rw [ht]; simp [ha]
    · rw [ht]; omega
    · rw [ht]; omega

/-- Scenario of C4: threshold 2, auto-refresh on, empty table; peer 1
identifies with DHT support: the table is the singleton of peer 1 and exactly
one refresh request is waiting. -/
theorem admitting_event_refresh_trigger_witness :
    (handleIdentified 2 exHost exDHT 1).routingTable = {1}
    ∧ (handleIdentified 2 exHost exDHT 1).triggerRtRefresh = 1
    ∧ (0 < (handleIdentified 2 exHost exDHT 1).triggerRtRefresh ↔
        0 < exDHT.triggerRtRefresh ∨
          (exDHT.autoRefresh = true ∧ exDHT.routingTable.Size ≤ 2)) :=
  ⟨by decide, by decide,
    (admitting_event_refresh_trigger 2 exHost exDHT 1 (by decide) (by decide)
      (by decide)).1⟩

/-! ## Loops over a list of peers -/

theorem updateCalls_append (l1 l2 : List Action) :
    updateCalls (l1 ++ l2) = updateCalls l1 ++ updateCalls l2 := by
  induction l1 with
  | nil => rfl
  | cons a l ih => cases a <;> simp [updateCalls, ih]

theorem updateCalls_map_Update (l : List PeerID) :
    updateCalls (l.map Action.Update) = l := by
  induction l with
  | nil => rfl
  | cons a l ih => simp [updateCalls, ih]

theorem invalidations_append (l1 l2 : List Action) :
    invalidations (l1 ++ l2) = invalidations l1 ++ invalidations l2 := by
  induction l1 with
  | nil => rfl
  | cons a l ih => cases a <;> simp [invalidations, ih]

theorem invalidations_map_Update (l : List PeerID) :
    invalidations (l.map Action.Update) = [] := by
  induction l with
  | nil => rfl
  | cons a l ih => simp [invalidations, ih]

/-- A loop whose body hands the peer to Update when a test on the peer holds,
and does nothing otherwise, hands over the peers passing the test, in order. -/
theorem foldl_update (protos : List ProtocolID) (c : PeerID → Bool)
    (g : IpfsDHT → PeerID → IpfsDHT)
    (hg : ∀ d p, d.protocolStrs = protos → g d p = if c p = true then d.Update p else d) :
    ∀ (l : List PeerID) (d : IpfsDHT), d.protocolStrs = protos →
      (l.foldl g d).protocolStrs = protos ∧
      (l.foldl g d).trace = d.trace ++ (l.filter c).map Action.Update ∧
      (l.foldl g d).routingTable = d.routingTable ∪ (l.filter c).toFinset ∧
      (l.foldl g d).strmap = d.strmap ∧
      (l.foldl g d).triggerRtRefresh = d.triggerRtRefresh ∧
      (l.foldl g d).autoRefresh = d.autoRefresh := by
  intro l
  induction l with
  | nil => intro d hd; simp [hd]
  | cons a l ih =>
    intro d hd
    rw [List.foldl_cons, hg d a hd]
    by_cases hc : c a = true
    · rw [if_pos hc]
      obtain ⟨h1, h2, h3, h4, h5, h6⟩ := ih (d.Update a) hd
      refine ⟨h1, ?_, ?_, h4, h5, h6⟩
      · rw [h2]; simp [List.filter_cons, hc]
      · rw [h3]; simp [List.filter_cons, hc]
    · rw [if_neg hc]
      obtain ⟨h1, h2, h3, h4, h5, h6⟩ := ih d hd
      refine ⟨h1, ?_, ?_, h4, h5, h6⟩
      · rw [h2]; simp [List.filter_cons, hc]
      · rw [h3]; simp [List.filter_cons, hc]

/-- The body of the bootstrap loop is a guarded Update. -/
theorem scanPeer_eq (h : Host) (protos : List ProtocolID) (d : IpfsDHT) (p : PeerID)
    (hd : d.protocolStrs = protos) :
    scanPeer h d p =
      if decide (h.Connectedness p = Connectedness.Connected ∧
          (h.SupportsProtocols p protos).2 = none ∧
          (h.SupportsProtocols p protos).1 ≠ []) = true then d.Update p else d := by
  subst hd
  unfold scanPeer supported
  by_cases hc : h.Connectedness p = Connectedness.Connected
  · by_cases h1 : (h.SupportsProtocols p d.protocolStrs).2 = none
    · by_cases h2 : (h.SupportsProtocols p d.protocolStrs).1 = []
      · simp [hc, h1, h2]
      · simp [hc, h1, h2]
    · simp [hc, h1]
  · simp [hc]

/-- The body of the recovery loop is a guarded Update. -/
theorem recoverPeer_eq (h : Host) (protos : List ProtocolID) (d : IpfsDHT) (p : PeerID)
    (hd : d.protocolStrs = protos) :
    recoverPeer h d p =
      if decide ((h.SupportsProtocols p protos).2 = none ∧
          (h.SupportsProtocols p protos).1 ≠ []) = true then d.Update p else d := by
  subst hd
  unfold recoverPeer supported
  by_cases h1 : (h.SupportsProtocols p d.protocolStrs).2 = none
  · by_cases h2 : (h.SupportsProtocols p d.protocolStrs).1 = []
    · simp [h1, h2]
    · simp [h1, h2]
  · simp [h1]

/-- C7: subscribe runs the bootstrap scan before the steady-state loop reads
its first event; the scan hands to Update exactly the peers of
Peerstore().Peers() that are Connected and for which SupportsProtocols
returned no error and a non-empty list (in order, no other peer), every such
peer is a member of the routing table after the scan, and the table after the
scan is the old table together with those peers. -/
theorem bootstrap_scan_updates (thr : Nat) (h : Host) (ready : List Ready) (dht : IpfsDHT) :
    subscribe thr h (some (), none) ready dht =
        eventLoop thr [Action.SubClose, Action.StopNotify]
          (bootstrapScan h (dht.emit Action.Notify)) ready
    ∧ updateCalls (emitted dht (bootstrapScan h dht)) =
        h.PeerstorePeers.filter (fun p =>
          decide (h.Connectedness p = Connectedness.Connected ∧
            (h.SupportsProtocols p dht.protocolStrs).2 = none ∧
            (h.SupportsProtocols p dht.protocolStrs).1 ≠ []))
    ∧ (bootstrapScan h dht).routingTable = dht.routingTable ∪
        (h.PeerstorePeers.filter (fun p =>
          decide (h.Connectedness p = Connectedness.Connected ∧
            (h.SupportsProtocols p dht.protocolStrs).2 = none ∧
            (h.SupportsProtocols p dht.protocolStrs).1 ≠ []))).toFinset
    ∧ (∀ p ∈ h.PeerstorePeers, h.Connectedness p = Connectedness.Connected →
        (h.SupportsProtocols p dht.protocolStrs).2 = none →
        (h.SupportsProtocols p dht.protocolStrs).1 ≠ [] →
        p ∈ (bootstrapScan h dht).routingTable) := by
  obtain ⟨-, h2, h3, -, -, -⟩ :=
    foldl_update dht.protocolStrs _ (scanPeer h)
      (fun d p hd => scanPeer_eq h dht.protocolStrs d p hd)
      h.PeerstorePeers (dht.emit Action.plkLock) rfl
  have htr : (bootstrapScan h dht).trace = dht.trace ++ (Action.plkLock ::
      ((h.PeerstorePeers.filter (fun p =>
          decide (h.Connectedness p = Connectedness.Connected ∧
            (h.SupportsProtocols p dht.protocolStrs).2 = none ∧
            (h.SupportsProtocols p dht.protocolStrs).1 ≠ []))).map Action.Update
        ++ [Action.plkUnlock])) := by
    unfold bootstrapScan
    simp only [emit_trace, h2]
    simp
  have hrt : (bootstrapScan h dht).routingTable = dht.routingTable ∪
        (h.PeerstorePeers.filter (fun p =>
          decide (h.Connectedness p = Connectedness.Connected ∧
            (h.SupportsProtocols p dht.protocolStrs).2 = none ∧
            (h.SupportsProtocols p dht.protocolStrs).1 ≠ []))).toFinset := by
    unfold bootstrapScan
    simp only [emit_routingTable, h3]
  refine ⟨rfl, ?_, hrt, ?_⟩
  · rw [emitted_of_trace _ _ _ htr]
    rw [show ∀ (a : Action) (l : List Action), a :: l = [a] ++ l from fun _ _ => rfl,
      updateCalls_append, updateCalls_append, updateCalls_map_Update]
    simp [updateCalls]
  · intro p hp hc he hne
    rw [hrt]
    simp only [Finset.mem_union, List.mem_toFinset, List.mem_filter, decide_eq_true_eq]
    exact Or.inr ⟨hp, hc, he, hne⟩

/-- With peers 1, 2, 3 in the peerstore (3 not connected, the lookup of 2
failing) the scan admits peer 1 and hands no other peer to Update. -/
theorem bootstrap_scan_updates_witness :
    (1 ∈ (bootstrapScan exHost exDHT).routingTable)
    ∧ updateCalls (emitted exDHT (bootstrapScan exHost exDHT)) = [1] :=
  ⟨(bootstrap_scan_updates 2 exHost [] exDHT).2.2.2 1 (by decide) (by decide)
      (by decide) (by decide),
    by decide⟩

/-! ## The disconnect handler -/

/-- Effect of Disconnected when the node is not shutting down and the peer is
not Connected: table, recorded calls, resource map and refresh channel. -/
theorem Disconnected_active (thr : Nat) (h : Host) (dht : IpfsDHT) (p : PeerID)
    (hnc : h.Connectedness p ≠ Connectedness.Connected) :
    (Disconnected thr false h dht p).routingTable =
        dht.routingTable.erase p ∪
          (if (dht.routingTable.erase p).card < thr then
            h.NetworkPeers.filter (fun q =>
              decide ((h.SupportsProtocols q dht.protocolStrs).2 = none ∧
                (h.SupportsProtocols q dht.protocolStrs).1 ≠ []))
          else []).toFinset
    ∧ (Disconnected thr false h dht p).trace =
        dht.trace ++ ([Action.plkLock, Action.Remove p] ++
          ((if (dht.routingTable.erase p).card < thr then
            h.NetworkPeers.filter (fun q =>
              decide ((h.SupportsProtocols q dht.protocolStrs).2 = none ∧
                (h.SupportsProtocols q dht.protocolStrs).1 ≠ []))
          else []).map Action.Update ++
          (Action.smlkLock :: ((dht.strmap p).toList.map Action.goInvalidate ++
            [Action.smlkUnlock, Action.plkUnlock]))))
    ∧ (Disconnected thr false h dht p).strmap =
        (fun q => if q = p then none else dht.strmap q)
    ∧ (Disconnected thr false h dht p).triggerRtRefresh = dht.triggerRtRefresh := by
  obtain ⟨-, f2, f3, f4, f5, -⟩ :=
    foldl_update dht.protocolStrs _ (recoverPeer h)
      (fun d q hd => recoverPeer_eq h dht.protocolStrs d q hd)
      h.NetworkPeers ((dht.emit Action.plkLock).Remove p) rfl
  unfold Disconnected
  simp only [Bool.false_eq_true, if_false, if_neg hnc, RoutingTable.Size, Remove_routingTable,
    emit_routingTable]
  by_cases hz : (dht.routingTable.erase p).card < thr
  · simp only [if_pos hz, emit_strmap, f4, Remove_strmap]
    cases hsm : dht.strmap p with
    | none =>
      simp [f2, f3, f5, hsm]
      rw [f4]
      funext q
      by_cases hq : q = p <;> simp [hq, hsm]
    | some ms =>
      simp [f2, f3, f5, hsm]
  · simp only [if_neg hz, emit_strmap, Remove_strmap]
    cases hsm : dht.strmap p with
    | none =>
      simp [hsm]
      funext q
      by_cases hq : q = p <;> simp [hq, hsm]
    | some ms =>
      simp [hsm]

/-- Effect of Disconnected when the node is shutting down or the peer is
still Connected: only the membership lock may have been taken and released. -/
theorem Disconnected_idle (thr : Nat) (closing : Bool) (h : Host) (dht : IpfsDHT) (p : PeerID)
    (hno : closing = true ∨ h.Connectedness p = Connectedness.Connected) :
    (Disconnected thr closing h dht p).routingTable = dht.routingTable
    ∧ (Disconnected thr closing h dht p).strmap = dht.strmap
    ∧ (Disconnected thr closing h dht p).triggerRtRefresh = dht.triggerRtRefresh
    ∧ (Disconnected thr closing h dht p).trace =
        dht.trace ++ (if closing = true then [] else [Action.plkLock, Action.plkUnlock]) := by
  unfold Disconnected
  by_cases hcl : closing = true
  · simp [hcl]
  · have hc : h.Connectedness p = Connectedness.Connected := hno.resolve_left hcl
    simp [hcl, hc]

/-- C2: when the node is not shutting down and the network reports peer p as
not Connected, Disconnected calls RoutingTable.Remove on p, and p is not a
member of the routing table when it returns, provided every peer listed by
Network().Peers() is reported Connected by the connectivity query (so the list
read by the recovery pass does not contain p). -/
theorem disconnect_removes_peer (thr : Nat) (h : Host) (dht : IpfsDHT) (p : PeerID)
    (hnc : h.Connectedness p ≠ Connectedness.Connected)
    (hagree : ∀ q ∈ h.NetworkPeers, h.Connectedness q = Connectedness.Connected) :
    Action.Remove p ∈ emitted dht (Disconnected thr false h dht p)
    ∧ p ∉ (Disconnected thr false h dht p).routingTable := by
  obtain ⟨hrt, htr, -, -⟩ := Disconnected_active thr h dht p hnc
  have hp : p ∉ h.NetworkPeers := fun hm => hnc (hagree p hm)
  constructor
  · rw [emitted_of_trace _ _ _ htr]; simp
  · rw [hrt]
    simp only [Finset.mem_union, Finset.mem_erase, List.mem_toFinset, not_or]
    refine ⟨fun hx => hx.1 rfl, ?_⟩
    split
    · intro hm; exact hp (List.mem_filter.1 hm).1
    · simp

/-- Peer 3 is a member, the threshold is 2 and the connected peers are 1 and
2: after Disconnected peer 3 is gone from the table. -/
theorem disconnect_removes_peer_witness :
    exHost.Connectedness 3 ≠ Connectedness.Connected
    ∧ 3 ∈ exDHT2.routingTable
    ∧ 3 ∉ (Disconnected 2 false exHost exDHT2 3).routingTable :=
  ⟨by decide, by decide,
    (disconnect_removes_peer 2 exHost exDHT2 3 (by decide) (by decide)).2⟩

/-- C3: when the node is already shutting down, or the network still reports
the peer as Connected, Disconnected changes nothing: the routing table and the
per-peer resource map are the ones before the call, no invalidation is
started, no peer is handed to Update or Remove, and the peer is a member
afterwards exactly when it was one before. -/
theorem disconnect_is_noop (thr : Nat) (closing : Bool) (h : Host) (dht : IpfsDHT)
    (p : PeerID)
    (hno : closing = true ∨ h.Connectedness p = Connectedness.Connected) :
    (Disconnected thr closing h dht p).routingTable = dht.routingTable
    ∧ (Disconnected thr closing h dht p).strmap = dht.strmap
    ∧ invalidations (emitted dht (Disconnected thr closing h dht p)) = []
    ∧ updateCalls (emitted dht (Disconnected thr closing h dht p)) = []
    ∧ Action.Remove p ∉ emitted dht (Disconnected thr closing h dht p)
    ∧ (p ∈ (Disconnected thr closing h dht p).routingTable ↔ p ∈ dht.routingTable) := by
  obtain ⟨hrt, hsm, -, htr⟩ := Disconnected_idle thr closing h dht p hno
  rw [emitted_of_trace _ _ _ htr, hrt]
  refine ⟨rfl, hsm, ?_, ?_, ?_, Iff.rfl⟩
  · split <;> rfl
  · split <;> rfl
  · split <;> simp

/-- Peer 4 is a member and still Connected: Disconnected leaves the table and
the resource map alone, during shutdown as well. -/
theorem disconnect_is_noop_witness :
    (Disconnected 2 false exHost exDHT2 4).routingTable = exDHT2.routingTable
    ∧ (Disconnected 2 true exHost exDHT2 3).strmap = exDHT2.strmap :=
  ⟨(disconnect_is_noop 2 false exHost exDHT2 4 (Or.inr (by decide))).1,
    (disconnect_is_noop 2 true exHost exDHT2 3 (Or.inl rfl)).2.1⟩

/-- C5: in Disconnected for a peer p that is not Connected, node not shutting
down: if the table size after removing p is below minRTRefreshThreshold (which
is the case when the size was equal to the threshold and p was a member),
every peer of Network().Peers() for which SupportsProtocols returned no error
and a non-empty list is a member on return, whatever the oracle answers for
the other peers, and the table is the old table without p together with those
peers; if the size after removal is at least the threshold, no peer is handed
to Update and the table is the old table without p. -/
theorem disconnect_recovery_pass (thr : Nat) (h : Host) (dht : IpfsDHT) (p : PeerID)
    (hnc : h.Connectedness p ≠ Connectedness.Connected) :
    ((dht.routingTable.Remove p).Size < thr →
        (∀ q ∈ h.NetworkPeers, (h.SupportsProtocols q dht.protocolStrs).2 = none →
          (h.SupportsProtocols q dht.protocolStrs).1 ≠ [] →
          q ∈ (Disconnected thr false h dht p).routingTable)
        ∧ (Disconnected thr false h dht p).routingTable =
            dht.routingTable.Remove p ∪
              (h.NetworkPeers.filter (fun q =>
                decide ((h.SupportsProtocols q dht.protocolStrs).2 = none ∧
                  (h.SupportsProtocols q dht.protocolStrs).1 ≠ []))).toFinset
        ∧ updateCalls (emitted dht (Disconnected thr false h dht p)) =
            h.NetworkPeers.filter (fun q =>
              decide ((h.SupportsProtocols q dht.protocolStrs).2 = none ∧
                (h.SupportsProtocols q dht.protocolStrs).1 ≠ [])))
    ∧ (thr ≤ (dht.routingTable.Remove p).Size →
        updateCalls (emitted dht (Disconnected thr false h dht p)) = []
        ∧ (Disconnected thr false h dht p).routingTable = dht.routingTable.Remove p)
    ∧ (p ∈ dht.routingTable → dht.routingTable.Size = thr →
        (dht.routingTable.Remove p).Size < thr) := by
  obtain ⟨hrt, htr, -, -⟩ := Disconnected_active thr h dht p hnc
  have hup : ∀ l : List PeerID, updateCalls ([Action.plkLock, Action.Remove p] ++
      (l.map Action.Update ++ (Action.smlkLock ::
        ((dht.strmap p).toList.map Action.goInvalidate ++
          [Action.smlkUnlock, Action.plkUnlock])))) = l := by
    intro l
    rw [updateCalls_append, updateCalls_append, updateCalls_map_Update]
    cases dht.strmap p <;> simp [updateCalls]
  rw [emitted_of_trace _ _ _ htr, hrt, hup]
  unfold RoutingTable.Size RoutingTable.Remove
  refine ⟨fun hz => ?_, fun hz => ?_, fun hm hs => ?_⟩
  · rw [if_pos hz]
    refine ⟨fun q hq he hne => ?_, rfl, rfl⟩
    simp only [Finset.mem_union, List.mem_toFinset, List.mem_filter, decide_eq_true_eq]
    exact Or.inr ⟨hq, he, hne⟩
  · rw [if_neg (by omega)]
    simp
  · rw [Finset.card_erase_of_mem hm]
    have : 0 < dht.routingTable.card := Finset.card_pos.2 ⟨p, hm⟩
    unfold RoutingTable.Size at hs
    omega

/-- The table holds peers 3 and 4 and the threshold is 2; peer 3 disconnects
while peers 1 and 2 are connected, the lookup of peer 2 failing: the recovery
pass admits peer 1 and the table becomes the set of peers 1 and 4. -/
theorem disconnect_recovery_pass_witness :
    (exDHT2.routingTable.Remove 3).Size < 2
    ∧ 1 ∈ (Disconnected 2 false exHost exDHT2 3).routingTable
    ∧ (Disconnected 2 false exHost exDHT2 3).routingTable = {1, 4}
    ∧ (exHost.SupportsProtocols 2 exDHT2.protocolStrs).2 ≠ none :=
  ⟨by decide,
    ((disconnect_recovery_pass 2 exHost exDHT2 3 (by decide)).1 (by decide)).1 1
      (by decide) (by decide) (by decide),
    by decide, by decide⟩

/-- C6: for Disconnected on a peer p that is not Connected, node not shutting
down: on return the resource map has no entry for p, the entry of every other
peer is the one before the call, and the invalidations started by the call
are: the removed entry, once, when p had an entry, and none when p had no
entry. -/
theorem disconnect_resource_entry (thr : Nat) (h : Host) (dht : IpfsDHT) (p : PeerID)
    (hnc : h.Connectedness p ≠ Connectedness.Connected) :
    (Disconnected thr false h dht p).strmap p = none
    ∧ (∀ q, q ≠ p → (Disconnected thr false h dht p).strmap q = dht.strmap q)
    ∧ invalidations (emitted dht (Disconnected thr false h dht p)) =
        (dht.strmap p).toList := by
  obtain ⟨-, htr, hsm, -⟩ := Disconnected_active thr h dht p hnc
  rw [emitted_of_trace _ _ _ htr, hsm]
  refine ⟨by simp, fun q hq => by simp [hq], ?_⟩
  rw [invalidations_append, invalidations_append, invalidations_map_Update]
  cases dht.strmap p <;> simp [invalidations]

/-- Peer 3 has the resource entry 30: Disconnected removes it and starts its
invalidation once; an entry-less peer starts none. -/
theorem disconnect_resource_entry_witness :
    exDHT2.strmap 3 = some 30
    ∧ (Disconnected 2 false exHost exDHT2 3).strmap 3 = none
    ∧ invalidations (emitted exDHT2 (Disconnected 2 false exHost exDHT2 3)) = [30] :=
  ⟨by decide, (disconnect_resource_entry 2 exHost exDHT2 3 (by decide)).1, by decide⟩

/-! ## Order of the lock operations in Disconnected -/

theorem bothHeld_absorb (held : Bool × Bool) (l : List Action) :
    ((held.1 && held.2) || bothHeld held l) = bothHeld held l := by
  cases l <;> simp [bothHeld]

theorem bothHeld_true (l : List Action) : bothHeld (true, true) l = true := by
  cases l <;> simp [bothHeld]

theorem bothHeld_map_Update (held : Bool × Bool) (us : List PeerID) (rest : List Action) :
    bothHeld held (us.map Action.Update ++ rest) = bothHeld held rest := by
  induction us with
  | nil => rfl
  | cons a us ih =>
    show ((held.1 && held.2) || bothHeld held (us.map Action.Update ++ rest)) =
      bothHeld held rest
    rw [ih]
    exact bothHeld_absorb held rest

/-- C10, amended to what the code does: an invocation of Disconnected that reaches the
resource map (it takes smlk) has taken plk before and still holds it when it
takes smlk, because the release of plk is deferred to the return; the deferred
unlocks run last, smlk first and plk after it.  Between the acquisition of
smlk and the return both locks are held; an invalidation is only started in
that interval. -/
theorem disconnect_lock_order (thr : Nat) (closing : Bool) (h : Host) (dht : IpfsDHT)
    (p : PeerID)
    (hreach : Action.smlkLock ∈ emitted dht (Disconnected thr closing h dht p)) :
    (∃ recovered : List PeerID,
      emitted dht (Disconnected thr closing h dht p) =
        [Action.plkLock, Action.Remove p] ++ (recovered.map Action.Update ++
          (Action.smlkLock :: ((dht.strmap p).toList.map Action.goInvalidate ++
            [Action.smlkUnlock, Action.plkUnlock]))))
    ∧ bothHeld (false, false) (emitted dht (Disconnected thr closing h dht p)) = true := by
  by_cases hno : closing = true ∨ h.Connectedness p = Connectedness.Connected
  · exfalso
    obtain ⟨-, -, -, htr⟩ := Disconnected_idle thr closing h dht p hno
    rw [emitted_of_trace _ _ _ htr] at hreach
    split at hreach <;> simp at hreach
  · have hcl : closing = false := by
      cases closing
      · rfl
      · exact absurd (Or.inl rfl) hno
    have hnc : h.Connectedness p ≠ Connectedness.Connected := fun hc => hno (Or.inr hc)
    subst hcl
    obtain ⟨-, htr, -, -⟩ := Disconnected_active thr h dht p hnc
    rw [emitted_of_trace _ _ _ htr]
    have key : ∀ (us : List PeerID) (tail : List Action),
        bothHeld (false, false) ([Action.plkLock, Action.Remove p] ++
          (us.map Action.Update ++ (Action.smlkLock :: tail))) = true := by
      intro us tail
      show ((false && false) || ((true && false) ||
        bothHeld (true, false) (us.map Action.Update ++ (Action.smlkLock :: tail)))) = true
      rw [bothHeld_map_Update]
      show ((false && false) || ((true && false) || ((true && false) ||
        bothHeld (true, true) tail))) = true
      rw [bothHeld_true]
      rfl
    exact ⟨⟨_, rfl⟩, key _ _⟩

/-- Peer 3 disconnects from the example node: plk is taken first, smlk is
taken while plk is held, and both are released at the very end. -/
theorem disconnect_lock_order_witness :
    Action.smlkLock ∈ emitted exDHT2 (Disconnected 2 false exHost exDHT2 3)
    ∧ bothHeld (false, false) (emitted exDHT2 (Disconnected 2 false exHost exDHT2 3)) = true :=
  ⟨by decide, (disconnect_lock_order 2 false exHost exDHT2 3 (by decide)).2⟩

/-- C10 as stated fails: in the invocation of Disconnected for
peer 3 on the example node the resource map is reached, plk is released only
after smlk was taken and released, and the two locks are held together. -/
theorem disconnect_locks_overlap :
    emitted exDHT2 (Disconnected 2 false exHost exDHT2 3) =
      [Action.plkLock, Action.Remove 3, Action.Update 1, Action.smlkLock,
        Action.goInvalidate 30, Action.smlkUnlock, Action.plkUnlock]
    ∧ ¬ (bothHeld (false, false)
          (emitted exDHT2 (Disconnected 2 false exHost exDHT2 3)) = false) := by
  decide

/-! ## Failure of the subscription -/

/-- C9, evaluated on the code: when EventBus().Subscribe returns an error and no
subscription (nil), subscribe logs the error and then panics in
`defer sub.Close()`: only the deferred StopNotify runs, the bootstrap scan is
not performed (no peer is handed to Update, the routing table is the one
before the call) and the loop is never entered, whatever the collaborators
and the events are. -/
theorem subscribe_error_panics (thr : Nat) (h : Host) (msg : GoError) (ready : List Ready)
    (dht : IpfsDHT) :
    subscribe thr h (none, some msg) ready dht =
        Outcome.panicked
          (runDefers [Action.StopNotify] ((dht.emit Action.Notify).emit Action.Errorf))
    ∧ (subscribe thr h (none, some msg) ready dht).dht.routingTable = dht.routingTable
    ∧ emitted dht (subscribe thr h (none, some msg) ready dht).dht =
        [Action.Notify, Action.Errorf, Action.StopNotify]
    ∧ updateCalls (emitted dht (subscribe thr h (none, some msg) ready dht).dht) = [] := by
  have e : subscribe thr h (none, some msg) ready dht =
      Outcome.panicked
        (runDefers [Action.StopNotify] ((dht.emit Action.Notify).emit Action.Errorf)) := by
    unfold subscribe
    simp
  have ht : emitted dht (subscribe thr h (none, some msg) ready dht).dht =
      [Action.Notify, Action.Errorf, Action.StopNotify] := by
    rw [e]
    exact emitted_of_trace _ _ _ (by simp [Outcome.dht])
  refine ⟨e, ?_, ht, ?_⟩
  · rw [e]; rfl
  · rw [ht]; rfl

end Dht
